import Mathlib

/-!
Shallow embedding of the historical-bar retrieval core of the
automated-trading repository: the `timeUtils` helpers
(`src/autotrade/src/utils/timeUtils.cpp`), the `bar` data model
(`bar.h` / `bar.cpp`: `BarSize`, `Bar`, `BarData`), and the
`histRetriever` coordinator (`HistoricalRetriever.h` / `.cpp`).

Modelling conventions:
* `boost::posix_time::time_duration` is a signed count of microsecond
  ticks (boost's default resolution), embedded directly as `Int`.  Component
  accessors (`hours()`, `minutes()`, `seconds()`) use C++ integer
  division, which truncates toward zero, hence `Int.tdiv` / `Int.tmod`.
* `boost::gregorian::date` is a day number (an `Int`; day 0 is
  1970-01-01).  `date + days(1)` is `+ 1`.  Concrete calendar dates are
  produced by `timeUtils.mkDate`, the standard civil-to-day-number
  conversion for the proleptic Gregorian calendar.
* `boost::posix_time::ptime` is a date together with a time-of-day
  offset; its ordering is lexicographic.
* C++ functions that can throw, or whose control can reach the end of a
  value-returning body without a `return` statement (undefined
  behavior), return a `CppOutcome`.
-/

/-- `boost::posix_time::seconds(n)`. -/
def timeUtils.seconds (n : Int) : Int := n * 1000000

/-- `boost::posix_time::minutes(n)`. -/
def timeUtils.minutes (n : Int) : Int := n * 60000000

/-- `boost::posix_time::hours(n)`. -/
def timeUtils.hours (n : Int) : Int := n * 3600000000

/-- The `seconds()` component accessor of a `time_duration`: the number of
normalized seconds past the minute.  C++ division truncates toward zero. -/
def timeUtils.td_seconds (d : Int) : Int :=
  (d.tdiv 1000000).tmod 60

/-- The `minutes()` component accessor of a `time_duration`. -/
def timeUtils.td_minutes (d : Int) : Int :=
  (d.tdiv 60000000).tmod 60

/-- The `hours()` component accessor of a `time_duration`; `time_duration`
has no larger unit, so this is the total (truncated) hour count. -/
def timeUtils.td_hours (d : Int) : Int :=
  d.tdiv 3600000000

/-- Civil date (year, month, day) to day number, proleptic Gregorian
calendar; used to build the concrete dates appearing in the repository's
tests.  Standard days-from-civil computation. -/
def timeUtils.mkDate (y m d : Int) : Int :=
  let yAdj : Int := if m ≤ 2 then y - 1 else y
  let era : Int := yAdj.fdiv 400
  let yoe : Int := yAdj - era * 400
  let mp : Int := (m + 9).emod 12
  let doy : Int := (153 * mp + 2).fdiv 5 + d - 1
  let doe : Int := yoe * 365 + yoe.fdiv 4 - yoe.fdiv 100 + doy
  era * 146097 + doe - 719468

/-- Boost `ptime`: a calendar date plus a time-of-day offset. -/
structure timeUtils.ptime where
  date : Int
  time_of_day : Int
deriving DecidableEq

/-- Boost `ptime` ordering: lexicographic on (date, time-of-day);
this is the key order of `std::map<ptime, Bar>`. -/
def timeUtils.ptime.lt (a b : timeUtils.ptime) : Bool :=
  decide (a.date < b.date) ||
    (decide (a.date = b.date) && decide (a.time_of_day < b.time_of_day))

/-- The loop body of `getDatesRange(date, date)`, indexed by the trip
count of the `while (currentDate < end)` loop: each iteration pushes the
current date and advances it by one day. -/
def timeUtils.getDatesRangeAux : Nat → Int → List Int
  | 0, _ => []
  | Nat.succ n, start => start :: timeUtils.getDatesRangeAux n (start + 1)

/-- `timeUtils::getDatesRange(const date&, const date&)`: pushes
`currentDate` and increments by one day while `currentDate < end`.  The
loop runs exactly `(end - start).toNat` times (zero when `end <= start`),
which is the fuel passed to the structural helper. -/
def timeUtils.getDatesRange (start stop : Int) :
    List Int :=
  timeUtils.getDatesRangeAux (stop - start).toNat start

/-- `timeUtils::getDatesRange(const ptime&, const ptime&)` overload:
extracts `start.date()` and `end.date()` and delegates to the
date-to-date overload. -/
def timeUtils.getDatesRangeP (start stop : timeUtils.ptime) :
    List Int :=
  timeUtils.getDatesRange start.date stop.date

/-- `bar::Bar` (bar.h): one OHLCV sample.  The C++ `double` price fields
carry no arithmetic anywhere in the verified fragment and are embedded as
rationals; `open` is a Lean keyword, hence `open_`. -/
structure bar.Bar where
  dateTime : timeUtils.ptime
  high : Rat
  low : Rat
  open_ : Rat
  close : Rat
  wap : Rat
  volume : Int
  count : Int
deriving DecidableEq

/-- `bar::BarSize` (bar.h): wraps a single `time_duration` field
`barSize_`. -/
structure bar.BarSize where
  barSize_ : Int
deriving DecidableEq

/-- The message of the `std::invalid_argument` thrown by
`BarSize::validateBarSize`. -/
def bar.invalidBarSizeMsg : String := "barSize must be less than 24 hours."

/-- `BarSize::validateBarSize`: returns `true` exactly when the validator
throws, i.e. when `barSize > timeUtils::hours(24)`. -/
def bar.BarSize.validateThrows (d : Int) : Bool :=
  decide (timeUtils.hours 24 < d)

/-- The constructor `BarSize::BarSize(time_duration)`: stores the duration
and runs `validateBarSize`, which throws `std::invalid_argument` iff the
duration exceeds 24 hours.  `Except.error` carries the throw message. -/
def bar.BarSize.create (d : Int) :
    Except String bar.BarSize :=
  if timeUtils.hours 24 < d then Except.error bar.invalidBarSizeMsg
  else Except.ok ⟨d⟩

/-- `BarSize::operator<(const time_duration&)`: delegates to `barSize_`. -/
def bar.BarSize.ltTd (b : bar.BarSize) (d : Int) : Bool :=
  decide (b.barSize_ < d)

/-- `BarSize::operator<=(const time_duration&)`. -/
def bar.BarSize.leTd (b : bar.BarSize) (d : Int) : Bool :=
  decide (b.barSize_ ≤ d)

/-- `BarSize::operator>(const time_duration&)`. -/
def bar.BarSize.gtTd (b : bar.BarSize) (d : Int) : Bool :=
  decide (d < b.barSize_)

/-- `BarSize::operator>=(const time_duration&)`. -/
def bar.BarSize.geTd (b : bar.BarSize) (d : Int) : Bool :=
  decide (d ≤ b.barSize_)

/-- `BarSize::operator==(const time_duration&)`. -/
def bar.BarSize.eqTd (b : bar.BarSize) (d : Int) : Bool :=
  decide (b.barSize_ = d)

/-- `BarSize::operator<(const BarSize&)`: compares the wrapped durations. -/
def bar.BarSize.ltB (a b : bar.BarSize) : Bool :=
  decide (a.barSize_ < b.barSize_)

/-- `BarSize::operator<=(const BarSize&)`. -/
def bar.BarSize.leB (a b : bar.BarSize) : Bool :=
  decide (a.barSize_ ≤ b.barSize_)

/-- `BarSize::operator>(const BarSize&)`. -/
def bar.BarSize.gtB (a b : bar.BarSize) : Bool :=
  decide (b.barSize_ < a.barSize_)

/-- `BarSize::operator>=(const BarSize&)`. -/
def bar.BarSize.geB (a b : bar.BarSize) : Bool :=
  decide (b.barSize_ ≤ a.barSize_)

/-- `BarSize::operator==(const BarSize&)`. -/
def bar.BarSize.eqB (a b : bar.BarSize) : Bool :=
  decide (a.barSize_ = b.barSize_)

/-- `BarSize::toString` (bar.cpp lines 119-139): an if/else-if chain in
which each equality test precedes the range test of its tier; component
accessors (`seconds()`, `minutes()`, `hours()`) supply the displayed
count. -/
def bar.BarSize.toString (b : bar.BarSize) : String :=
  if b.barSize_ = timeUtils.seconds 1 then "1 sec"
  else if b.barSize_ < timeUtils.minutes 1 then
    ToString.toString (timeUtils.td_seconds b.barSize_) ++ " secs"
  else if b.barSize_ = timeUtils.minutes 1 then "1 min"
  else if b.barSize_ < timeUtils.hours 1 then
    ToString.toString (timeUtils.td_minutes b.barSize_) ++ " mins"
  else if b.barSize_ = timeUtils.hours 1 then "1 hour"
  else if b.barSize_ < timeUtils.hours 24 then
    ToString.toString (timeUtils.td_hours b.barSize_) ++ " hours"
  else "1 day"

/-- `BarSize::operator+(const std::string&)`: `toString() + other`. -/
def bar.BarSize.addStr (b : bar.BarSize) (other : String) : String :=
  b.toString ++ other

/-- Free `bar::operator+(const std::string&, const BarSize&)`. -/
def bar.strAddBarSize (first : String) (second : bar.BarSize) : String :=
  first ++ second.toString

/-- `std::map<ptime, Bar>` insertion through `operator[]` assignment
(`bars[bar.dateTime] = bar`): the map is a key-sorted association list;
when an equivalent key (neither strictly less in either direction) is
present its mapped value is replaced. -/
def bar.mapInsert (k : timeUtils.ptime) (v : bar.Bar) :
    List (timeUtils.ptime × bar.Bar) → List (timeUtils.ptime × bar.Bar)
  | [] => [(k, v)]
  | (k2, v2) :: rest =>
    if timeUtils.ptime.lt k k2 then (k, v) :: (k2, v2) :: rest
    else if timeUtils.ptime.lt k2 k then (k2, v2) :: bar.mapInsert k v rest
    else (k, v) :: rest

/-- `bar::BarData` (bar.h): a `BarSize` plus a `std::map<ptime, Bar>`. -/
structure bar.BarData where
  barSize_ : bar.BarSize
  bars : List (timeUtils.ptime × bar.Bar)
deriving DecidableEq

/-- `BarData::BarData(const BarSize&)`: starts with an empty map. -/
def bar.BarData.mkEmpty (b : bar.BarSize) : bar.BarData := ⟨b, []⟩

/-- `BarData::addBar(Bar)`: `bars[bar.dateTime] = bar`. -/
def bar.BarData.addBar (d : bar.BarData) (b : bar.Bar) : bar.BarData :=
  ⟨d.barSize_, bar.mapInsert b.dateTime b d.bars⟩

/-- `BarData::size()`: `bars.size()`. -/
def bar.BarData.size (d : bar.BarData) : Nat := d.bars.length

/-- Outcome of calling one of the coordinator's C++ functions: a returned
value, a thrown exception (with its message), or control reaching the end
of a value-returning body that has no `return` statement — undefined
behavior in C++. -/
inductive histRetriever.CppOutcome (α : Type) where
  | fallsOffEnd
  | thrown (msg : String)
  | returns (val : α)
deriving DecidableEq

/-- The message of the `std::logic_error` thrown by `getFilePaths` for
finer-than-daily bar sizes (two concatenated C++ string literals; the
typo `yer` is the source's). -/
def histRetriever.intradayMsg : String :=
  "Retrieving intraday historical bar data is not yer implemented."

/-- Anonymous-namespace helper `getFilePaths` (HistoricalRetriever.cpp):
when `barSize >= hours(24)` it pushes `"../histData/" + symbol +
"/daily.csv"` into a local vector but then falls off the end of the
function without returning it (undefined behavior); otherwise it throws
`std::logic_error` saying intraday retrieval is unimplemented. -/
def histRetriever.getFilePaths (symbol : String)
    (startDateTime endDateTime : timeUtils.ptime) (barSize : bar.BarSize) :
    histRetriever.CppOutcome (List String) :=
  if bar.BarSize.geTd barSize (timeUtils.hours 24) then
    histRetriever.CppOutcome.fallsOffEnd
  else
    histRetriever.CppOutcome.thrown histRetriever.intradayMsg

/-- `histRetriever::retrieveBarData` (HistoricalRetriever.cpp lines
32-42): the function body is empty.  Every call — regardless of the
symbol, the requested range, the bar size, or the flags — performs no
validation, consults no cache, calls no helper (in particular not
`getFilePaths`), throws nothing, and falls off the end of a
value-returning function: undefined behavior. -/
def histRetriever.retrieveBarData (symbol : String)
    (startDateTime endDateTime : timeUtils.ptime) (barSize : bar.BarSize)
    (includeAfterHours searchCache storeToCache : Bool) :
    histRetriever.CppOutcome bar.BarData :=
  histRetriever.CppOutcome.fallsOffEnd

/-- The rendering rule exactly as the specification's C6 sentence states
it (written from the spec, for comparison with the source's
`BarSize::toString`): a count of the tier's unit with the unit word
singular exactly when the displayed count is 1. -/
def bar.specCanonicalRender (d : Int) : String :=
  let plural := fun (n : Int) (unit : String) =>
    ToString.toString n ++ " " ++ (if n = 1 then unit else unit ++ "s")
  if d < timeUtils.minutes 1 then plural (d.tdiv 1000000) "sec"
  else if d < timeUtils.hours 1 then plural (d.tdiv 60000000) "min"
  else if d < timeUtils.hours 24 then plural (d.tdiv 3600000000) "hour"
  else "1 day"

/-- The amended rendering rule that the source actually satisfies on
valid bar sizes: floor count of the tier's unit with a plural unit word,
except that the three exact unit boundaries (exactly 1 second, exactly 1
minute, exactly 1 hour) render singular, and exactly 24 hours renders as
the literal "1 day". -/
def bar.amendedCanonicalRender (d : Int) : String :=
  if d = timeUtils.seconds 1 then "1 sec"
  else if d = timeUtils.minutes 1 then "1 min"
  else if d = timeUtils.hours 1 then "1 hour"
  else if d < timeUtils.minutes 1 then
    ToString.toString (d.tdiv 1000000) ++ " secs"
  else if d < timeUtils.hours 1 then
    ToString.toString (d.tdiv 60000000) ++ " mins"
  else if d < timeUtils.hours 24 then
    ToString.toString (d.tdiv 3600000000) ++ " hours"
  else "1 day"

/-! Helper lemmas about the embedded definitions. -/

theorem timeUtils.getDatesRangeAux_length (n : Nat) (start : Int) :
    (timeUtils.getDatesRangeAux n start).length = n := by
  induction n generalizing start with
  | zero => rfl
  | succ n ih => simp [timeUtils.getDatesRangeAux, ih]

theorem timeUtils.getDatesRangeAux_mem (n : Nat) (start x : Int) :
    x ∈ timeUtils.getDatesRangeAux n start ↔ start ≤ x ∧ x < start + n := by
  induction n generalizing start with
  | zero =>
    simp only [timeUtils.getDatesRangeAux, List.not_mem_nil, false_iff]
    omega
  | succ n ih =>
    simp only [timeUtils.getDatesRangeAux, List.mem_cons, ih]
    omega

theorem timeUtils.getDatesRangeAux_sorted (n : Nat) (start : Int) :
    List.Sorted (fun a b => a < b) (timeUtils.getDatesRangeAux n start) := by
  induction n generalizing start with
  | zero => exact List.sorted_nil
  | succ n ih =>
    rw [show timeUtils.getDatesRangeAux (n + 1) start =
        start :: timeUtils.getDatesRangeAux n (start + 1) from rfl]
    rw [List.sorted_cons]
    refine ⟨fun b hb => ?_, ih (start + 1)⟩
    have := (timeUtils.getDatesRangeAux_mem n (start + 1) b).mp hb
    omega

theorem timeUtils.getDatesRangeAux_last (n : Nat) (start : Int) :
    (timeUtils.getDatesRangeAux (n + 1) start).getLast? =
      some (start + (n : Int)) := by
  induction n generalizing start with
  | zero => simp [timeUtils.getDatesRangeAux]
  | succ n ih =>
    have h := ih (start + 1)
    rw [show timeUtils.getDatesRangeAux (n + 1 + 1) start =
        start :: timeUtils.getDatesRangeAux (n + 1) (start + 1) from rfl]
    rw [show timeUtils.getDatesRangeAux (n + 1) (start + 1) =
        (start + 1) :: timeUtils.getDatesRangeAux n (start + 1 + 1) from rfl]
    rw [show timeUtils.getDatesRangeAux (n + 1) (start + 1) =
        (start + 1) :: timeUtils.getDatesRangeAux n (start + 1 + 1) from rfl] at h
    rw [List.getLast?_cons_cons, h]
    simp only [Option.some.injEq]
    omega

theorem timeUtils.getDatesRange_length (start stop : Int) :
    (timeUtils.getDatesRange start stop).length = (stop - start).toNat :=
  timeUtils.getDatesRangeAux_length _ _

theorem timeUtils.getDatesRange_mem (start stop x : Int) :
    x ∈ timeUtils.getDatesRange start stop ↔ start ≤ x ∧ x < stop := by
  rw [timeUtils.getDatesRange, timeUtils.getDatesRangeAux_mem]
  omega

theorem timeUtils.getDatesRange_sorted (start stop : Int) :
    List.Sorted (fun a b => a < b) (timeUtils.getDatesRange start stop) :=
  timeUtils.getDatesRangeAux_sorted _ _

theorem timeUtils.getDatesRange_head (start stop : Int)
    (h : start < stop) :
    (timeUtils.getDatesRange start stop).head? = some start := by
  rw [timeUtils.getDatesRange]
  obtain ⟨n, hn⟩ : ∃ n, (stop - start).toNat = n + 1 :=
    ⟨(stop - start).toNat - 1, by omega⟩
  rw [hn]
  rfl

theorem timeUtils.getDatesRange_last (start stop : Int)
    (h : start < stop) :
    (timeUtils.getDatesRange start stop).getLast? = some (stop - 1) := by
  rw [timeUtils.getDatesRange]
  obtain ⟨n, hn⟩ : ∃ n, (stop - start).toNat = n + 1 :=
    ⟨(stop - start).toNat - 1, by omega⟩
  rw [hn, timeUtils.getDatesRangeAux_last]
  simp only [Option.some.injEq]
  omega

theorem timeUtils.ptime.lt_irrefl (a : timeUtils.ptime) :
    timeUtils.ptime.lt a a = false := by
  simp [timeUtils.ptime.lt]

theorem timeUtils.td_seconds_eq (d : Int) (h0 : 0 ≤ d)
    (h1 : d < 60000000) : timeUtils.td_seconds d = d.tdiv 1000000 := by
  have he : d.tdiv 1000000 = d / 1000000 := Int.tdiv_eq_ediv h0 (by norm_num)
  have hq : 0 ≤ d.tdiv 1000000 := by rw [he]; omega
  have hlt : d.tdiv 1000000 < 60 := by rw [he]; omega
  exact Int.tmod_eq_of_lt hq hlt

theorem timeUtils.td_minutes_eq (d : Int) (h0 : 0 ≤ d)
    (h1 : d < 3600000000) : timeUtils.td_minutes d = d.tdiv 60000000 := by
  have he : d.tdiv 60000000 = d / 60000000 := Int.tdiv_eq_ediv h0 (by norm_num)
  have hq : 0 ≤ d.tdiv 60000000 := by rw [he]; omega
  have hlt : d.tdiv 60000000 < 60 := by rw [he]; omega
  exact Int.tmod_eq_of_lt hq hlt

/-! Claim theorems. -/

/-- C1: The claim says every finer-than-daily request makes
`retrieveBarData` fail with a NotImplemented error and never yields an
empty or partial BarSeries.  The source's `retrieveBarData` body is
empty: every call — intraday included — falls off the end of a
value-returning function (undefined behavior) instead of failing with
NotImplemented; the NotImplemented throw exists only in the helper
`getFilePaths`, which `retrieveBarData` never calls.  This theorem
evaluates the code at such a request: the call produces no thrown error
and no BarSeries, while the uncalled helper would indeed throw the
not-implemented `std::logic_error`. -/
theorem histRetriever.retrieveBarData_intraday_stub (symbol : String)
    (sd ed : timeUtils.ptime) (b : bar.BarSize) (iah sc stc : Bool)
    (h : bar.BarSize.ltTd b (timeUtils.hours 24) = true) :
    histRetriever.retrieveBarData symbol sd ed b iah sc stc =
      histRetriever.CppOutcome.fallsOffEnd ∧
    histRetriever.getFilePaths symbol sd ed b =
      histRetriever.CppOutcome.thrown histRetriever.intradayMsg := by
  have hlt : b.barSize_ < timeUtils.hours 24 := by
    simpa [bar.BarSize.ltTd] using h
  have hge : ¬ (timeUtils.hours 24 ≤ b.barSize_) := not_le.mpr hlt
  exact ⟨rfl, by simp [histRetriever.getFilePaths, bar.BarSize.geTd, hge]⟩

/-- Witness for C1 at the concrete request used by the repository's own
test, with a one-minute bar size. -/
theorem histRetriever.retrieveBarData_intraday_stub_witness :
    histRetriever.retrieveBarData "SPY"
        ⟨timeUtils.mkDate 2020 3 30, timeUtils.hours 9⟩
        ⟨timeUtils.mkDate 2020 4 3, timeUtils.hours 16⟩
        ⟨timeUtils.minutes 1⟩ false true true =
      histRetriever.CppOutcome.fallsOffEnd ∧
    histRetriever.getFilePaths "SPY"
        ⟨timeUtils.mkDate 2020 3 30, timeUtils.hours 9⟩
        ⟨timeUtils.mkDate 2020 4 3, timeUtils.hours 16⟩
        ⟨timeUtils.minutes 1⟩ =
      histRetriever.CppOutcome.thrown histRetriever.intradayMsg :=
  histRetriever.retrieveBarData_intraday_stub "SPY"
    ⟨timeUtils.mkDate 2020 3 30, timeUtils.hours 9⟩
    ⟨timeUtils.mkDate 2020 4 3, timeUtils.hours 16⟩
    ⟨timeUtils.minutes 1⟩ false true true (by decide)

/-- C2: The claim says a request with start at or after the end fails
fast with an InvalidRange error before the cache or the provider is
consulted.  The source performs no validation at all: `retrieveBarData`
has an empty body, so even for start at or after the end the call raises
nothing and simply falls off the end of a value-returning function
(undefined behavior).  The hypothesis states start is not before the end
in the lexicographic ptime order. -/
theorem histRetriever.retrieveBarData_no_range_validation (symbol : String)
    (sd ed : timeUtils.ptime) (b : bar.BarSize) (iah sc stc : Bool)
    (h : timeUtils.ptime.lt sd ed = false) :
    histRetriever.retrieveBarData symbol sd ed b iah sc stc =
      histRetriever.CppOutcome.fallsOffEnd := rfl

/-- Witness for C2 at a concrete request whose start equals its end. -/
theorem histRetriever.retrieveBarData_no_range_validation_witness :
    histRetriever.retrieveBarData "SPY"
        ⟨timeUtils.mkDate 2020 4 3, timeUtils.hours 16⟩
        ⟨timeUtils.mkDate 2020 4 3, timeUtils.hours 16⟩
        ⟨timeUtils.hours 24⟩ false true true =
      histRetriever.CppOutcome.fallsOffEnd :=
  histRetriever.retrieveBarData_no_range_validation "SPY"
    ⟨timeUtils.mkDate 2020 4 3, timeUtils.hours 16⟩
    ⟨timeUtils.mkDate 2020 4 3, timeUtils.hours 16⟩
    ⟨timeUtils.hours 24⟩ false true true
    (by simp [timeUtils.ptime.lt])

/-- C4: For every duration `d` with `0 < d <= 24h`, constructing a
`BarSize` from `d` succeeds and the result compares equal to `d` through
`operator==(time_duration)`; for `d > 24h` the construction fails with
the InvalidBarSize error (`std::invalid_argument` with the validator's
message). -/
theorem bar.barSize_construction_spec (d : Int) :
    (0 < d → d ≤ timeUtils.hours 24 →
      bar.BarSize.create d = Except.ok ⟨d⟩ ∧
      bar.BarSize.eqTd ⟨d⟩ d = true) ∧
    (timeUtils.hours 24 < d →
      bar.BarSize.create d = Except.error bar.invalidBarSizeMsg) := by
  refine ⟨fun _ h2 => ⟨?_, by simp [bar.BarSize.eqTd]⟩, fun h => ?_⟩
  · rw [bar.BarSize.create, if_neg (not_lt.mpr h2)]
  · rw [bar.BarSize.create, if_pos h]

/-- Witness for C4: construction succeeds at one minute and compares
equal to its duration; construction at 25 hours fails with the
InvalidBarSize message. -/
theorem bar.barSize_construction_spec_witness :
    (bar.BarSize.create (timeUtils.minutes 1) =
        Except.ok ⟨timeUtils.minutes 1⟩ ∧
      bar.BarSize.eqTd ⟨timeUtils.minutes 1⟩ (timeUtils.minutes 1) = true) ∧
    bar.BarSize.create (timeUtils.hours 25) =
      Except.error bar.invalidBarSizeMsg :=
  ⟨(bar.barSize_construction_spec (timeUtils.minutes 1)).1 (by decide)
      (by decide),
    (bar.barSize_construction_spec (timeUtils.hours 25)).2 (by decide)⟩

/-- C5: `BarSize::toString` applies equality checks before range checks
at each granularity tier: exactly 60 seconds renders as "1 min" (not
"60 secs"), 5 seconds renders as "5 secs", and exactly 24 hours renders
as "1 day". -/
theorem bar.barSize_toString_examples :
    bar.BarSize.toString ⟨timeUtils.seconds 60⟩ = "1 min" ∧
    bar.BarSize.toString ⟨timeUtils.seconds 5⟩ = "5 secs" ∧
    bar.BarSize.toString ⟨timeUtils.hours 24⟩ = "1 day" := by
  refine ⟨?_, ?_, ?_⟩ <;> decide

/-- C7: Inserting two Bars carrying the same timestamp into an empty
BarSeries leaves the series holding exactly one Bar at that timestamp,
equal to the second one (last-write-wins), and `size()` returns 1. -/
theorem bar.barData_addBar_last_write_wins (bs : bar.BarSize)
    (b1 b2 : bar.Bar) (h : b1.dateTime = b2.dateTime) :
    (((bar.BarData.mkEmpty bs).addBar b1).addBar b2).bars =
      [(b2.dateTime, b2)] ∧
    (((bar.BarData.mkEmpty bs).addBar b1).addBar b2).size = 1 := by
  have hb : (((bar.BarData.mkEmpty bs).addBar b1).addBar b2).bars =
      [(b2.dateTime, b2)] := by
    simp [bar.BarData.mkEmpty, bar.BarData.addBar, bar.mapInsert, h,
      timeUtils.ptime.lt_irrefl]
  exact ⟨hb, by simp [bar.BarData.size, hb]⟩

/-- Witness for C7: two concrete Bars with the same timestamp and
different prices; the series retains only the second. -/
theorem bar.barData_addBar_last_write_wins_witness :
    (((bar.BarData.mkEmpty ⟨timeUtils.minutes 5⟩).addBar
        ⟨⟨18350, timeUtils.hours 9⟩, 180, 179, 179.5, 179.6, 179.3,
          12341234, 10⟩).addBar
        ⟨⟨18350, timeUtils.hours 9⟩, 181, 178, 179.1, 180.2, 179.9,
          99999, 12⟩).bars =
      [(⟨18350, timeUtils.hours 9⟩,
        ⟨⟨18350, timeUtils.hours 9⟩, 181, 178, 179.1, 180.2, 179.9,
          99999, 12⟩)] ∧
    (((bar.BarData.mkEmpty ⟨timeUtils.minutes 5⟩).addBar
        ⟨⟨18350, timeUtils.hours 9⟩, 180, 179, 179.5, 179.6, 179.3,
          12341234, 10⟩).addBar
        ⟨⟨18350, timeUtils.hours 9⟩, 181, 178, 179.1, 180.2, 179.9,
          99999, 12⟩).size = 1 :=
  bar.barData_addBar_last_write_wins ⟨timeUtils.minutes 5⟩
    ⟨⟨18350, timeUtils.hours 9⟩, 180, 179, 179.5, 179.6, 179.3,
      12341234, 10⟩
    ⟨⟨18350, timeUtils.hours 9⟩, 181, 178, 179.1, 180.2, 179.9,
      99999, 12⟩ rfl

/-- C8: Every relational comparison of a BarSize against a duration
agrees with comparing the wrapped duration against that duration, and
every comparison of two BarSizes agrees with the corresponding
BarSize-against-duration comparison applied to the right operand's
wrapped duration — a BarSize is substitutable for a duration in the
supported relational comparisons. -/
theorem bar.barSize_comparisons_delegate (b1 b2 : bar.BarSize) (d : Int) :
    (bar.BarSize.ltTd b1 d = true ↔ b1.barSize_ < d) ∧
    (bar.BarSize.leTd b1 d = true ↔ b1.barSize_ ≤ d) ∧
    (bar.BarSize.gtTd b1 d = true ↔ d < b1.barSize_) ∧
    (bar.BarSize.geTd b1 d = true ↔ d ≤ b1.barSize_) ∧
    (bar.BarSize.eqTd b1 d = true ↔ b1.barSize_ = d) ∧
    bar.BarSize.ltB b1 b2 = bar.BarSize.ltTd b1 b2.barSize_ ∧
    bar.BarSize.leB b1 b2 = bar.BarSize.leTd b1 b2.barSize_ ∧
    bar.BarSize.gtB b1 b2 = bar.BarSize.gtTd b1 b2.barSize_ ∧
    bar.BarSize.geB b1 b2 = bar.BarSize.geTd b1 b2.barSize_ ∧
    bar.BarSize.eqB b1 b2 = bar.BarSize.eqTd b1 b2.barSize_ := by
  refine ⟨?_, ?_, ?_, ?_, ?_, rfl, rfl, rfl, rfl, rfl⟩ <;>
    simp [bar.BarSize.ltTd, bar.BarSize.leTd, bar.BarSize.gtTd,
      bar.BarSize.geTd, bar.BarSize.eqTd]

/-- C9: `validateBarSize` checks only the upper bound, so construction
from a zero or negative duration succeeds even though the specification
states the invariant `0 < duration`; construction fails exactly when the
duration exceeds 24 hours. -/
theorem bar.barSize_lower_bound_not_validated (d : Int) :
    (d ≤ 0 → bar.BarSize.create d = Except.ok ⟨d⟩) ∧
    ((∃ msg, bar.BarSize.create d = Except.error msg) ↔
      timeUtils.hours 24 < d) := by
  refine ⟨fun h => ?_, ⟨fun ⟨msg, hmsg⟩ => ?_, fun h => ?_⟩⟩
  · have hn : ¬ timeUtils.hours 24 < d := by
      simp only [timeUtils.hours]
      omega
    rw [bar.BarSize.create, if_neg hn]
  · by_contra hc
    rw [bar.BarSize.create, if_neg hc] at hmsg
    exact Except.noConfusion hmsg
  · exact ⟨bar.invalidBarSizeMsg, by rw [bar.BarSize.create, if_pos h]⟩

/-- Witness for C9: construction succeeds at the negative duration of
minus five seconds (and fails at 25 hours, matching the iff). -/
theorem bar.barSize_lower_bound_not_validated_witness :
    bar.BarSize.create (timeUtils.seconds (-5)) =
      Except.ok ⟨timeUtils.seconds (-5)⟩ ∧
    timeUtils.hours 24 < timeUtils.hours 25 :=
  ⟨(bar.barSize_lower_bound_not_validated (timeUtils.seconds (-5))).1
      (by decide),
    by decide⟩

/-- C3: For instants start < end, `getDatesRange` returns exactly
end.date - start.date dates (the number of calendar days a range
spans in date arithmetic, 10 in the spec's example) in ascending order;
the first is start's calendar date, end's calendar date is excluded
(in particular when end falls exactly on a day boundary), and the last
returned date is the day before end's date. -/
theorem timeUtils.getDatesRange_spec (s e : timeUtils.ptime)
    (h : timeUtils.ptime.lt s e = true) :
    (timeUtils.getDatesRangeP s e).length = (e.date - s.date).toNat ∧
    List.Sorted (fun a b => a < b) (timeUtils.getDatesRangeP s e) ∧
    (s.date < e.date →
      (timeUtils.getDatesRangeP s e).head? = some s.date) ∧
    e.date ∉ timeUtils.getDatesRangeP s e ∧
    (s.date < e.date →
      (timeUtils.getDatesRangeP s e).getLast? = some (e.date - 1)) := by
  refine ⟨timeUtils.getDatesRange_length s.date e.date,
    timeUtils.getDatesRange_sorted s.date e.date,
    fun hlt => timeUtils.getDatesRange_head s.date e.date hlt, ?_,
    fun hlt => timeUtils.getDatesRange_last s.date e.date hlt⟩
  rw [timeUtils.getDatesRangeP, timeUtils.getDatesRange_mem]
  omega

/-- Witness for C3 at the repository's own test case: 2010-09-10 to
2010-09-20 yields 10 dates, first 2010-09-10, last 2010-09-19, and
2010-09-20 itself is excluded. -/
theorem timeUtils.getDatesRange_spec_witness :
    (timeUtils.getDatesRangeP ⟨timeUtils.mkDate 2010 9 10, 0⟩
        ⟨timeUtils.mkDate 2010 9 20, 0⟩).length = 10 ∧
    (timeUtils.getDatesRangeP ⟨timeUtils.mkDate 2010 9 10, 0⟩
        ⟨timeUtils.mkDate 2010 9 20, 0⟩).head? =
      some (timeUtils.mkDate 2010 9 10) ∧
    (timeUtils.getDatesRangeP ⟨timeUtils.mkDate 2010 9 10, 0⟩
        ⟨timeUtils.mkDate 2010 9 20, 0⟩).getLast? =
      some (timeUtils.mkDate 2010 9 19) ∧
    timeUtils.mkDate 2010 9 20 ∉
      timeUtils.getDatesRangeP ⟨timeUtils.mkDate 2010 9 10, 0⟩
        ⟨timeUtils.mkDate 2010 9 20, 0⟩ := by
  have h := timeUtils.getDatesRange_spec ⟨timeUtils.mkDate 2010 9 10, 0⟩
    ⟨timeUtils.mkDate 2010 9 20, 0⟩ (by decide)
  refine ⟨?_, ?_, ?_, h.2.2.2.1⟩
  · rw [h.1]
    decide
  · rw [h.2.2.1 (by decide)]
  · rw [h.2.2.2.2 (by decide)]
    decide

/-- C10: The ptime overload of `getDatesRange` factors through the
calendar dates of its arguments (so it depends on nothing else), always
excludes end's calendar date — even when end's time-of-day is strictly
after midnight, so a partial final day is never represented — and
returns the empty list rather than an error whenever start's date is at
or after end's date. -/
theorem timeUtils.getDatesRangeP_date_only (s e : timeUtils.ptime) :
    timeUtils.getDatesRangeP s e =
      timeUtils.getDatesRange s.date e.date ∧
    e.date ∉ timeUtils.getDatesRangeP s e ∧
    (e.date ≤ s.date → timeUtils.getDatesRangeP s e = []) := by
  refine ⟨rfl, ?_, fun h => ?_⟩
  · rw [timeUtils.getDatesRangeP, timeUtils.getDatesRange_mem]
    omega
  · rw [timeUtils.getDatesRangeP, timeUtils.getDatesRange]
    rw [show (e.date - s.date).toNat = 0 from by omega]
    rfl

/-- Witness for C10: both instants fall on 2020-03-30, with the end
five hours after midnight; the partial day produces no date at all and
the result is empty, not an error. -/
theorem timeUtils.getDatesRangeP_date_only_witness :
    timeUtils.getDatesRangeP ⟨timeUtils.mkDate 2020 3 30, 0⟩
        ⟨timeUtils.mkDate 2020 3 30, timeUtils.hours 5⟩ = [] ∧
    timeUtils.mkDate 2020 3 30 ∉
      timeUtils.getDatesRangeP ⟨timeUtils.mkDate 2020 3 30, 0⟩
        ⟨timeUtils.mkDate 2020 3 30, timeUtils.hours 5⟩ := by
  have h := timeUtils.getDatesRangeP_date_only
    ⟨timeUtils.mkDate 2020 3 30, 0⟩
    ⟨timeUtils.mkDate 2020 3 30, timeUtils.hours 5⟩
  exact ⟨h.2.2 (by decide), h.2.1⟩

/-- C6 counterexample: at 61 seconds the displayed count is 1 (the
minutes component) yet the source renders the plural "1 mins", while the
claim's canonical form — unit word singular exactly when the count is
1 — demands "1 min".  The claim as stated is therefore false at the
valid BarSize of 61 seconds. -/
theorem bar.barSize_toString_plural_counterexample :
    bar.BarSize.toString ⟨timeUtils.seconds 61⟩ = "1 mins" ∧
    bar.specCanonicalRender (timeUtils.seconds 61) = "1 min" ∧
    bar.BarSize.toString ⟨timeUtils.seconds 61⟩ ≠
      bar.specCanonicalRender (timeUtils.seconds 61) := by
  refine ⟨by decide, by decide, by decide⟩

/-- C6 (amended): for every valid BarSize (0 < d <= 24h), the rendering
shows the floor count of the tier's unit — seconds below one minute,
minutes below one hour, hours below 24 hours — with a plural unit word,
except that the exact unit boundaries (exactly one second, one minute,
one hour) render singular and exactly 24 hours renders as the literal
"1 day"; the singular form appears only at those boundary equalities,
not whenever the displayed count is 1. -/
theorem bar.barSize_toString_canonical_amended (d : Int) (h1 : 0 < d)
    (h2 : d ≤ timeUtils.hours 24) :
    bar.BarSize.toString ⟨d⟩ = bar.amendedCanonicalRender d := by
  have h2n : d ≤ 86400000000 := by simpa [timeUtils.hours] using h2
  rcases (by omega :
      d = 1000000 ∨ (d < 60000000 ∧ d ≠ 1000000) ∨ d = 60000000 ∨
      (60000000 < d ∧ d < 3600000000) ∨ d = 3600000000 ∨
      (3600000000 < d ∧ d < 86400000000) ∨ d = 86400000000) with
    h | h | h | h | h | h | h
  · subst h
    decide
  · have ha : d ≠ 60000000 := by omega
    have hb : d ≠ 3600000000 := by omega
    have hc : timeUtils.td_seconds d = d.tdiv 1000000 :=
      timeUtils.td_seconds_eq d (by omega) h.1
    simp [bar.BarSize.toString, bar.amendedCanonicalRender,
      timeUtils.seconds, timeUtils.minutes, timeUtils.hours, h.1, h.2,
      ha, hb, hc]
  · subst h
    decide
  · have ha : d ≠ 1000000 := by omega
    have hb : d ≠ 60000000 := by omega
    have hbc : ¬ d < 60000000 := by omega
    have hcc : d ≠ 3600000000 := by omega
    have hc : timeUtils.td_minutes d = d.tdiv 60000000 :=
      timeUtils.td_minutes_eq d (by omega) h.2
    simp [bar.BarSize.toString, bar.amendedCanonicalRender,
      timeUtils.seconds, timeUtils.minutes, timeUtils.hours, ha, hb,
      hbc, hcc, h.2, hc]
  · subst h
    decide
  · have ha : d ≠ 1000000 := by omega
    have hb : d ≠ 60000000 := by omega
    have hbc : ¬ d < 60000000 := by omega
    have hcc : d ≠ 3600000000 := by omega
    have hdd : ¬ d < 3600000000 := by omega
    simp [bar.BarSize.toString, bar.amendedCanonicalRender,
      timeUtils.seconds, timeUtils.minutes, timeUtils.hours,
      timeUtils.td_hours, ha, hb, hbc, hcc, hdd, h.2]
  · subst h
    decide

/-- Witness for the amended C6 at 61 seconds: a valid BarSize whose
rendering "1 mins" carries the plural unit word with a displayed count
of 1. -/
theorem bar.barSize_toString_canonical_amended_witness :
    0 < timeUtils.seconds 61 ∧
    timeUtils.seconds 61 ≤ timeUtils.hours 24 ∧
    bar.BarSize.toString ⟨timeUtils.seconds 61⟩ =
      bar.amendedCanonicalRender (timeUtils.seconds 61) :=
  ⟨by decide, by decide,
    bar.barSize_toString_canonical_amended (timeUtils.seconds 61)
      (by decide) (by decide)⟩
